import Mathlib

/-!
Verification development for the AstroBox community module provider.

Shallow embedding of `src/cdn.rs`, `src/community/legacyparse.rs` and
`src/community/officialv2.rs`.  Rust strings are modelled as Lean `String`
(a list of characters); the string primitives used by the source
(`contains`, `replace`, `strip_prefix`, `trim`, `split`) are defined below
over `List Char` with the semantics of the corresponding `str` methods.
External collaborators (the HTTP client, serde/csv parsing, the random
number generator, the clock and the filesystem) are modelled as explicit
oracle parameters, so every provider operation is a pure function of its
oracle, its arguments and the provider state.
-/

/-- Boolean test that `p` is a prefix of `l` (the semantics of Rust
`str::starts_with` on the character level). -/
def isPref : List Char → List Char → Bool
  | [], _ => true
  | _ :: _, [] => false
  | a :: as, b :: bs => a = b && isPref as bs

/-- Boolean substring test, the semantics of Rust `str::contains`:
some (possibly empty) pattern occurrence starts at some position. -/
def containsSub : List Char → List Char → Bool
  | hay, pat =>
    match hay with
    | [] => isPref pat []
    | _ :: t => isPref pat hay || containsSub t pat

/-- Rust `str::contains` on `String`. -/
def strContains (hay pat : String) : Bool :=
  containsSub hay.data pat.data

/-- Replacement of every non-overlapping occurrence of the non-empty pattern
`p :: ps`, scanning left to right: the core of Rust `str::replace`. -/
def replaceGo (p : Char) (ps rep : List Char) : List Char → List Char
  | [] => []
  | c :: rest =>
    if isPref (p :: ps) (c :: rest) then
      rep ++ replaceGo p ps rep (rest.drop ps.length)
    else
      c :: replaceGo p ps rep rest
termination_by l => l.length
decreasing_by
  all_goals simp [List.length_drop]
  all_goals omega

/-- Rust `str::replace hay pat rep` over character lists.  For an empty
pattern Rust inserts the replacement at every character boundary. -/
def replaceAll (hay pat rep : List Char) : List Char :=
  match pat with
  | [] => rep ++ hay.flatMap (fun c => c :: rep)
  | p :: ps => replaceGo p ps rep hay

/-- Rust `str::replace` on `String`. -/
def strReplace (hay pat rep : String) : String :=
  ⟨replaceAll hay.data pat.data rep.data⟩

/-- Rust `str::strip_prefix`: the remainder when `pre` is a prefix. -/
def dropPref : List Char → List Char → Option (List Char)
  | [], l => some l
  | _ :: _, [] => none
  | a :: as, b :: bs => if a = b then dropPref as bs else none

/-- Rust `str::strip_prefix` on `String`. -/
def strStripPre (s pre : String) : Option String :=
  (dropPref pre.data s.data).map (fun l => ⟨l⟩)

/-- The CDN variants of `src/cdn.rs` (`Direct` in the spec is `Raw`). -/
inductive GitHubCdn where
  | Raw
  | AstroBoxProMirror
  | AstroBoxProMirrorWaterFlames
  | GhFast
  | GhProxy
deriving DecidableEq, Repr

/-- The canonical raw-content prefix tested by `GitHubCdn::convert_url`. -/
def rawContentHost : String := "https://raw.githubusercontent.com/"

/-- Embedding of `GitHubCdn::convert_url` (src/cdn.rs lines 13-37).  Note the
source guards on `url.contains(...)`, not on a prefix test. -/
def convert_url (cdn : GitHubCdn) (url : String) : String :=
  if ¬ strContains url rawContentHost then
    url
  else
    match cdn with
    | .Raw => url
    | .AstroBoxProMirror =>
        strReplace url rawContentHost "https://api.astrobox.online/ghoss/"
    | .AstroBoxProMirrorWaterFlames =>
        strReplace url rawContentHost "https://api-astrobox.waterflames.cn/ghoss/"
    | .GhFast =>
        "https://ghfast.top/" ++ ((strStripPre url "https://").getD url)
    | .GhProxy =>
        "https://gh-proxy.com/" ++ ((strStripPre url "https://").getD url)

/-- Resource types of `src/community/models/official.rs`. -/
inductive ResourceTypeV2 where
  | QuickApp
  | WatchFace
  | Firmware
  | FontPack
  | IconPack
deriving DecidableEq, Repr

/-- Paid types of `src/community/models/official.rs`. -/
inductive PaidTypeV2 where
  | Free
  | Paid
  | ForcePaid
deriving DecidableEq, Repr

/-- Index rows of `index_v2.csv` (`IndexV2` in models/official.rs); the
semicolon-delimited cells arrive already split by the serde helper. -/
structure IndexV2 where
  id : String
  name : String
  restype : ResourceTypeV2
  repo_owner : String
  repo_name : String
  repo_commit_hash : String
  icon : String
  cover : String
  tags : List String
  device_vendors : List String
  devices : List String
  paid_type : PaidTypeV2
deriving DecidableEq, Repr

/-- Device chip kinds (`DeviceChipV2`). -/
inductive DeviceChipV2 where
  | XRing
  | Bes
deriving DecidableEq, Repr

/-- Device entries (`DeviceV2`). -/
structure DeviceV2 where
  id : String
  name : String
  description : String
  chip : DeviceChipV2
  fetch : Bool
deriving DecidableEq, Repr

/-- Device map (`DeviceMapV2`), with each vendor bucket modelled as an
association list keyed by the vendor-specific model key, matching the
map usage in officialv2.rs. -/
structure DeviceMapV2 where
  xiaomi : List (String × DeviceV2)
  vivo : List (String × DeviceV2)
deriving DecidableEq, Repr

/-- A JSON value (the model of `serde_json::Value`); objects are association
lists in document order. -/
inductive Json where
  | null
  | bool (b : Bool)
  | num (n : Int)
  | str (s : String)
  | arr (items : List Json)
  | obj (fields : List (String × Json))

/-- First association-list entry for a key, the model of map lookup. -/
def assocLookup {β : Type} : List (String × β) → String → Option β
  | [], _ => none
  | (k, v) :: rest, key => if k = key then some v else assocLookup rest key

/-- Map insertion with replacement, the model of `HashMap::insert` over an
association list. -/
def assocInsert {β : Type} : List (String × β) → String → β → List (String × β)
  | [], key, v => [(key, v)]
  | (k, w) :: rest, key, v =>
      if k = key then (k, v) :: rest else (k, w) :: assocInsert rest key v

/-- Model of `serde_json::Value::get` for a field name. -/
def Json.getField : Json → String → Option Json
  | .obj fields, key => assocLookup fields key
  | _, _ => none

/-- Model of `serde_json::Value::as_str`. -/
def Json.asStr : Json → Option String
  | .str s => some s
  | _ => none

/-- Model of `serde_json::Value::as_bool`. -/
def Json.asBool : Json → Option Bool
  | .bool b => some b
  | _ => none

/-- Model of `serde_json::Value::as_array`. -/
def Json.asArr : Json → Option (List Json)
  | .arr items => some items
  | _ => none

/-- Model of `serde_json::Value::as_object` (the field list). -/
def Json.asObj : Json → Option (List (String × Json))
  | .obj fields => some fields
  | _ => none

/-- Manifest authors (`ManifestAuthorV2`). -/
structure ManifestAuthorV2 where
  name : String
  bind_ab_account : Bool

/-- Manifest links (`ManifestLinkV2`). -/
structure ManifestLinkV2 where
  icon : Option String
  title : String
  url : String

/-- Download update-log entries (`ManifestDownloadUpdateLogV2`). -/
structure ManifestDownloadUpdateLogV2 where
  version : String
  content : String

/-- Per-device download entries (`ManifestDownloadV2`). -/
structure ManifestDownloadV2 where
  version : String
  file_name : String
  url : Option String
  sha256 : Option String
  display_name : Option String
  updatelogs : Option (List ManifestDownloadUpdateLogV2)

/-- Manifest item summaries (`ManifestItemV2`). -/
structure ManifestItemV2 where
  id : String
  restype : ResourceTypeV2
  name : String
  description : String
  preview : List String
  icon : String
  cover : String
  author : List ManifestAuthorV2

/-- The `Default` value of `ManifestItemV2` derived in models/common.rs. -/
def ManifestItemV2.default : ManifestItemV2 :=
  { id := "", restype := .QuickApp, name := "", description := "",
    preview := [], icon := "", cover := "", author := [] }

/-- Manifests (`ManifestV2`); the `downloads` hash map is modelled as an
association list in iteration order. -/
structure ManifestV2 where
  item : ManifestItemV2
  links : List ManifestLinkV2
  downloads : List (String × ManifestDownloadV2)
  ext : Json

/-- Sort rules (`SortRuleV2`). -/
inductive SortRuleV2 where
  | Random
  | Name
  | Time
deriving DecidableEq, Repr

/-- Search configuration (`SearchConfig`). -/
structure SearchConfig where
  filter : Option String
  sort : SortRuleV2
  category : Option (List String)

/-- Provider lifecycle states (`ProviderState`). -/
inductive ProviderState where
  | Ready
  | Updating
  | Failed (reason : String)
deriving DecidableEq, Repr

/-- Boolean suffix test (Rust `str::ends_with`). -/
def strEndsWith (s suffix_ : String) : Bool :=
  isPref suffix_.data.reverse s.data.reverse

/-- Rust `str::trim`: drop whitespace from both ends. -/
def strTrim (s : String) : String :=
  ⟨(((s.data.dropWhile Char.isWhitespace).reverse.dropWhile Char.isWhitespace).reverse)⟩

/-- The last segment of `url.split('/')` (always defined; the segment after
the final slash, or the whole string without slashes). -/
def lastSlashSegment (s : String) : String :=
  ⟨s.data.foldl (fun acc c => if c = '/' then [] else acc ++ [c]) []⟩

/-- Decimal rendering of a natural number, the model of Rust `format!`
on an unsigned integer, built on `Nat.digits` so that injectivity is
available. -/
def natToString (n : Nat) : String :=
  if n = 0 then "0" else ⟨((Nat.digits 10 n).map Nat.digitChar).reverse⟩

/-- Embedding of `map_download_key_v1_to_v2` (src/community/legacyparse.rs
lines 8-39). -/
def map_download_key_v1_to_v2 (key : String) : String :=
  match key with
  | "n62" => "xmws3"
  | "o62" => "xmws4"
  | "o62m" => "xmws4xring"
  | "p62" => "xmws5"
  | "p62m" => "xmws5xring"
  | "o65" => "xmrw5"
  | "o65m" => "xmrw5xring"
  | "n66" => "xmb9"
  | "n67" => "xmb9p"
  | "o66" => "xmb10"
  | "o66nfc" => "xmb10nfc"
  | "p65" => "xmrw6"
  | other => other

/-- The legacy hardware codes translated by `map_download_key_v1_to_v2`. -/
def legacyDeviceKeys : List String :=
  ["n62", "o62", "o62m", "p62", "p62m", "o65", "o65m", "n66", "n67",
   "o66", "o66nfc", "p65"]

/-- Author conversion inside `manifest_v1_to_v2`. -/
def legacyAuthor (a : Json) : ManifestAuthorV2 :=
  { name := ((a.getField "name").bind Json.asStr).getD ""
    bind_ab_account := ((a.getField "bindABAccount").bind Json.asBool).getD false }

/-- Link conversion inside `manifest_v1_to_v2`: entries whose title and url
are both empty are dropped, an empty icon string becomes no icon. -/
def legacyLinks : List Json → List ManifestLinkV2
  | [] => []
  | l :: rest =>
      let title := ((l.getField "title").bind Json.asStr).getD ""
      let url := ((l.getField "url").bind Json.asStr).getD ""
      if title = "" ∧ url = "" then
        legacyLinks rest
      else
        let icon := ((l.getField "icon").bind Json.asStr).bind
          (fun s => if s = "" then none else some s)
        { icon := icon, title := title, url := url } :: legacyLinks rest

/-- Update-log conversion inside `manifest_v1_to_v2`: entries missing either
field are skipped. -/
def legacyUpdateLogs : List Json → List ManifestDownloadUpdateLogV2
  | [] => []
  | log :: rest =>
      match (log.getField "version").bind Json.asStr,
            (log.getField "content").bind Json.asStr with
      | some ver, some content =>
          { version := ver, content := content } :: legacyUpdateLogs rest
      | _, _ => legacyUpdateLogs rest

/-- Download-value conversion inside `manifest_v1_to_v2`. -/
def legacyDownload (v : Json) : ManifestDownloadV2 :=
  let updatelogs :=
    match (v.getField "updatelogs").bind Json.asArr with
    | some arr =>
        let logs := legacyUpdateLogs arr
        if logs.isEmpty then none else some logs
    | none => none
  { version := ((v.getField "version").bind Json.asStr).getD ""
    file_name := ((v.getField "file_name").bind Json.asStr).getD ""
    url := (v.getField "url").bind Json.asStr
    sha256 := (v.getField "sha256").bind Json.asStr
    display_name := (v.getField "display_name").bind Json.asStr
    updatelogs := updatelogs }

/-- Download-map conversion inside `manifest_v1_to_v2`: each legacy key is
re-keyed through the lookup table and inserted into the hash map. -/
def legacyDownloads : List (String × Json) → List (String × ManifestDownloadV2) → List (String × ManifestDownloadV2)
  | [], acc => acc
  | (k, v) :: rest, acc =>
      legacyDownloads rest (assocInsert acc (map_download_key_v1_to_v2 k) (legacyDownload v))

/-- Embedding of `manifest_v1_to_v2` (src/community/legacyparse.rs lines
41-214).  The Rust function returns `anyhow::Result` but never errs, so the
model is total. -/
def manifest_v1_to_v2 (raw : Json) : ManifestV2 :=
  let item := (raw.getField "item").getD (Json.obj [])
  let downloads := (raw.getField "downloads").getD (Json.obj [])
  let links_value := (raw.getField "links").getD (Json.arr [])
  let ext := (raw.getField "ext").getD Json.null
  let icon := ((item.getField "icon").bind Json.asStr).getD ""
  let item_v2 : ManifestItemV2 :=
    { ManifestItemV2.default with
      id := ((item.getField "id").bind Json.asStr).getD ""
      name := ((item.getField "name").bind Json.asStr).getD ""
      description := ((item.getField "description").bind Json.asStr).getD ""
      preview :=
        (((item.getField "preview").bind Json.asArr).map
          (fun arr => arr.filterMap Json.asStr)).getD []
      icon := icon
      cover := ((item.getField "cover").bind Json.asStr).getD icon
      author :=
        match (item.getField "author").bind Json.asArr with
        | some arr => arr.map legacyAuthor
        | none => ManifestItemV2.default.author }
  let links_v2 := legacyLinks (links_value.asArr.getD [])
  let downloads_v2 :=
    match downloads.asObj with
    | some fields => legacyDownloads fields []
    | none => []
  { item := item_v2, links := links_v2, downloads := downloads_v2, ext := ext }

/-- An HTTP response: status code and raw body text. -/
structure HttpResponse where
  status : Nat
  body : String

/-- Model of `reqwest::Response::error_for_status`, which errs exactly on
client and server error codes (400-599). -/
def is_error_status (s : Nat) : Bool :=
  decide (400 ≤ s) && decide (s ≤ 599)

/-- Oracles for the HTTP client and the serde parsers used by
`get_manifest`: `http url = none` is a network-level send failure, and the
two parse oracles stand for `serde_json::from_str` at the two result
types. -/
structure FetchEnv where
  http : String → Option HttpResponse
  parseJsonText : String → Option Json
  parseManifestV2 : String → Option ManifestV2

/-- Embedding of `OfficialV2Provider::build_repo_raw_url`. -/
def build_repo_raw_url (owner name commit_hash : String) : String :=
  "https://raw.githubusercontent.com/" ++ owner ++ "/" ++ name ++ "/" ++ commit_hash

/-- Embedding of `OfficialV2Provider::build_repo_cdn_url`. -/
def build_repo_cdn_url (cdn : GitHubCdn) (owner name commit_hash : String) : String :=
  convert_url cdn (build_repo_raw_url owner name commit_hash)

/-- Embedding of `OfficialV2Provider::build_repo_cdn_url_by_index_item`. -/
def build_repo_cdn_url_by_index_item (cdn : GitHubCdn) (item : IndexV2) : String :=
  build_repo_cdn_url cdn item.repo_owner item.repo_name item.repo_commit_hash

/-- The URL `get_manifest` requests first. -/
def manifestV2Url (cdn : GitHubCdn) (owner name commit_hash : String) : String :=
  build_repo_cdn_url cdn owner name commit_hash ++ "/manifest_v2.json"

/-- The legacy URL `get_manifest` falls back to. -/
def manifestV1Url (cdn : GitHubCdn) (owner name commit_hash : String) : String :=
  build_repo_cdn_url cdn owner name commit_hash ++ "/manifest.json"

/-- Embedding of `OfficialV2Provider::get_manifest` (officialv2.rs lines
188-226).  Besides the result it returns the list of URLs requested, in
order, so that the legacy fallback is observable. -/
def get_manifest (env : FetchEnv) (cdn : GitHubCdn) (owner name commit_hash : String) :
    Except String ManifestV2 × List String :=
  match env.http (manifestV2Url cdn owner name commit_hash) with
  | none => (.error "send failed", [manifestV2Url cdn owner name commit_hash])
  | some resp_v2 =>
    if resp_v2.status = 404 then
      match env.http (manifestV1Url cdn owner name commit_hash) with
      | none => (.error "send failed",
          [manifestV2Url cdn owner name commit_hash, manifestV1Url cdn owner name commit_hash])
      | some resp_v1 =>
        if is_error_status resp_v1.status then
          (.error ("failed to request legacy manifest `" ++
              manifestV1Url cdn owner name commit_hash ++ "`"),
           [manifestV2Url cdn owner name commit_hash, manifestV1Url cdn owner name commit_hash])
        else
          match env.parseJsonText resp_v1.body with
          | none => (.error "failed to parse legacy manifest json",
              [manifestV2Url cdn owner name commit_hash, manifestV1Url cdn owner name commit_hash])
          | some raw_v1 => (.ok (manifest_v1_to_v2 raw_v1),
              [manifestV2Url cdn owner name commit_hash, manifestV1Url cdn owner name commit_hash])
    else
      if is_error_status resp_v2.status then
        (.error ("failed to request manifest v2 `" ++
            manifestV2Url cdn owner name commit_hash ++ "`"),
         [manifestV2Url cdn owner name commit_hash])
      else
        match env.parseManifestV2 resp_v2.body with
        | none => (.error "manifest v2 parse failed", [manifestV2Url cdn owner name commit_hash])
        | some manifest => (.ok manifest, [manifestV2Url cdn owner name commit_hash])

/-- Embedding of the download-entry selection in
`OfficialV2Provider::download` (officialv2.rs lines 429-435): exact device
key, then the `"default"` key, then the first entry in iteration order. -/
def select_download_entry (downloads : List (String × ManifestDownloadV2)) (device : String) :
    Option ManifestDownloadV2 :=
  ((assocLookup downloads device).orElse
    (fun _ => assocLookup downloads "default")).orElse
    (fun _ => downloads.head?.map Prod.snd)

/-- Embedding of `sanitize_local_filename` (officialv2.rs lines 584-599). -/
def sanitize_local_filename (input : String) : String :=
  let forbidden : List Char := ['/', '\\', ':', '*', '?', '"', '<', '>', '|']
  let s : String := ⟨input.data.map (fun c => if c ∈ forbidden then '_' else c)⟩
  let s := strTrim s
  if s = "" ∨ s = "." ∨ s = ".." then "download" else s

/-- Embedding of the file-name resolution in `OfficialV2Provider::download`
(officialv2.rs lines 437-447): the trimmed explicit name, else the last
URL path segment, and an error when still blank. -/
def resolve_file_name (entry : ManifestDownloadV2) : Option String :=
  let file_name := strTrim entry.file_name
  let file_name :=
    if file_name = "" then
      match entry.url with
      | some url => lastSlashSegment url
      | none => file_name
    else file_name
  if file_name = "" then none else some file_name

/-- Filesystem paths as component lists. -/
abbrev FsPath := List String

/-- A filesystem snapshot: the content (a byte list) of each present file. -/
abbrev FileSys := FsPath → Option (List Nat)

/-- Write or overwrite one file. -/
def fsSet (fs : FileSys) (p : FsPath) (content : List Nat) : FileSys :=
  fun q => if q = p then some content else fs q

/-- Remove one file (total: removing an absent file is a no-op, matching the
ignored result of `fs::remove_file` in the cleanup path). -/
def fsRemove (fs : FileSys) (p : FsPath) : FileSys :=
  fun q => if q = p then none else fs q

/-- Model of `fs::rename src dst`: the destination receives the source's
content and the source disappears. -/
def fsRename (fs : FileSys) (src dst : FsPath) : FileSys :=
  fun q =>
    if q = src then none
    else if q = dst then fs src
    else fs q

/-- One event of the download byte stream: a delivered chunk, a failed
chunk read, or a failed chunk write. -/
inductive StreamEv where
  | chunkOk (data : List Nat)
  | readErr
  | writeErr

/-- Oracles for one `download` call: the artifact request (status of the
resolved URL, `none` for a network-level failure), the byte-stream events,
the fallible filesystem steps, the cache root reported by the host
(`none` when the app cache directory is unavailable) and the nanosecond
timestamp used for the unique temporary name.  The progress callback is
omitted: its emissions are throttled by wall-clock time and touch neither
the provider nor the filesystem. -/
structure DownloadEnv where
  fetch : FetchEnv
  artifactStatus : String → Option Nat
  stream : List StreamEv
  createDirOk : Bool
  createTmpOk : Bool
  flushOk : Bool
  renameOk : Bool
  cacheRoot : Option FsPath
  nanos : Nat

/-- The streaming loop of `OfficialV2Provider::download`: each delivered
chunk is appended to the temporary file; a read or write failure aborts. -/
def streamLoop (tmp_path : FsPath) : List StreamEv → FileSys → Except String Unit × FileSys
  | [], fs => (.ok (), fs)
  | .readErr :: _, fs => (.error "failed to read download chunk", fs)
  | .writeErr :: _, fs => (.error "failed to write download chunk", fs)
  | .chunkOk data :: rest, fs =>
      streamLoop tmp_path rest (fsSet fs tmp_path (((fs tmp_path).getD []) ++ data))

/-- The async block of `OfficialV2Provider::download` (officialv2.rs lines
475-571): create the temporary file, request the resolved URL, stream the
body into it, flush, and atomically rename onto the final path. -/
def downloadAttempt (env : DownloadEnv) (resolved_url : String)
    (tmp_path final_path : FsPath) (fs : FileSys) : Except String FsPath × FileSys :=
  if ¬ env.createTmpOk then
    (.error "failed to create temp file", fs)
  else
    let fs := fsSet fs tmp_path []
    match env.artifactStatus resolved_url with
    | none => (.error ("failed to request " ++ resolved_url), fs)
    | some status =>
      if is_error_status status then
        (.error ("download request returned error for " ++ resolved_url), fs)
      else
        match streamLoop tmp_path env.stream fs with
        | (.error e, fs) => (.error e, fs)
        | (.ok _, fs) =>
          if ¬ env.flushOk then (.error "failed to flush", fs)
          else if ¬ env.renameOk then (.error "failed to move downloaded file", fs)
          else (.ok final_path, fsRename fs tmp_path final_path)

/-- The pure prefix of `OfficialV2Provider::download` (officialv2.rs lines
412-459): item lookup by id with name fallback, manifest fetch, entry
selection, file-name resolution and URL resolution. -/
def downloadPrepare (env : DownloadEnv) (index : List IndexV2) (cdn : GitHubCdn)
    (item_id device : String) : Except String (IndexV2 × String × String) :=
  match (index.find? (fun entry => entry.id = item_id)).orElse
      (fun _ => index.find? (fun entry => entry.name = item_id)) with
  | none => .error "Item not found by id or name"
  | some item =>
    match (get_manifest env.fetch cdn item.repo_owner item.repo_name item.repo_commit_hash).1 with
    | .error e => .error e
    | .ok manifest =>
      match select_download_entry manifest.downloads device with
      | none => .error ("no downloadable artifact for device `" ++ device ++ "`")
      | some entry =>
        match resolve_file_name entry with
        | none => .error "download entry missing file name"
        | some file_name =>
          let resolved_url :=
            match entry.url with
            | some url => convert_url cdn url
            | none => build_repo_cdn_url_by_index_item cdn item ++ "/" ++ file_name
          .ok (item, file_name, resolved_url)

/-- Embedding of `OfficialV2Provider::download` (officialv2.rs lines
406-578) as a function of its oracles, the provider's index and CDN
snapshot, and the filesystem. -/
def download (env : DownloadEnv) (index : List IndexV2) (cdn : GitHubCdn)
    (item_id device : String) (fs : FileSys) : Except String FsPath × FileSys :=
  match downloadPrepare env index cdn item_id device with
  | .error e => (.error e, fs)
  | .ok (item, file_name, resolved_url) =>
    let safe_file_name := sanitize_local_filename file_name
    match env.cacheRoot with
    | none => (.error "app cache directory unavailable", fs)
    | some root =>
      let item_dir := root ++ ["community", "official_v2", item.id]
      if ¬ env.createDirOk then
        (.error "failed to create cache directory", fs)
      else
        let final_path := item_dir ++ [safe_file_name]
        let tmp_name := natToString env.nanos ++ "." ++ safe_file_name ++ ".part"
        let tmp_path := item_dir ++ [tmp_name]
        match downloadAttempt env resolved_url tmp_path final_path fs with
        | (.ok p, fs1) => (.ok p, fs1)
        | (.error e, fs1) => (.error e, fsRemove fs1 tmp_path)

/-- Model of serde's deserialization of a `GitHubCdn` value: a fieldless
enum deserializes from the exact variant-name string. -/
def parseCdnVariant : Json → Option GitHubCdn
  | .str "Raw" => some .Raw
  | .str "AstroBoxProMirror" => some .AstroBoxProMirror
  | .str "AstroBoxProMirrorWaterFlames" => some .AstroBoxProMirrorWaterFlames
  | .str "GhFast" => some .GhFast
  | .str "GhProxy" => some .GhProxy
  | _ => none

/-- Model of serde's deserialization of `HashMap<String, GitHubCdn>` from a
JSON value: every field value must itself deserialize as a variant, else
the whole map fails; a non-object fails. -/
def parseCdnConfig : Json → Option (List (String × GitHubCdn))
  | .obj fields =>
      fields.mapM (fun kv => (parseCdnVariant kv.2).map (fun c => (kv.1, c)))
  | _ => none

/-- The CDN selection performed by `OfficialV2Provider::refresh`
(officialv2.rs lines 244-245): `serde_json::from_str(cfg).unwrap_or(empty)`
followed by `cfg.get("cdn").unwrap_or(&GitHubCdn::Raw)`.  The argument is
`none` when the config text is not valid JSON at all. -/
def selectCdn (cfg : Option Json) : GitHubCdn :=
  (assocLookup ((cfg.bind parseCdnConfig).getD []) "cdn").getD .Raw

/-- The per-row ingestion loop of `refresh` (officialv2.rs lines 252-265):
a failed row (`none`) is dropped; a row with the sentinel id takes the
synthesized id `placeholder_<counter>` and bumps the counter.  The counter
cell is an `ArcSwap<u32>` (officialv2.rs line 43) and the bump is `*n + 1`
(line 258), so both the rendered value and the stored successor are u32
values: the `% 2 ^ 32` is the release-mode wrap-around of that
addition. -/
def processRows : List (Option IndexV2) → Nat → List IndexV2 × Nat
  | [], counter => ([], counter)
  | none :: rest, counter => processRows rest counter
  | some i :: rest, counter =>
      if i.id = "<placeholder>" then
        let out := processRows rest ((counter + 1) % 2 ^ 32)
        ({ i with id := "placeholder_" ++ natToString (counter % 2 ^ 32) } :: out.1, out.2)
      else
        let out := processRows rest counter
        (i :: out.1, out.2)

/-- Chunking into pieces of exactly `k` elements with a ragged tail, the
semantics of Rust `slice::chunks` for a positive chunk size; `cur`
accumulates the current piece in reverse. -/
def chunksGo {α : Type} (k : Nat) : List α → List α → List (List α)
  | [], cur => if cur.isEmpty then [] else [cur.reverse]
  | x :: xs, cur =>
      let cur' := x :: cur
      if cur'.length = k then cur'.reverse :: chunksGo k xs [] else chunksGo k xs cur'

/-- Rust `slice::chunks k`: `none` models the panic at chunk size zero. -/
def chunkList {α : Type} (k : Nat) (l : List α) : Option (List (List α)) :=
  if k = 0 then none else some (chunksGo k l [])

/-- Byte-wise lexicographic order on character lists, the semantics of the
`Ord` instance Rust's `str::cmp` uses in `sort_by`. -/
def listLeB : List Char → List Char → Bool
  | [], _ => true
  | _ :: _, [] => false
  | a :: as, b :: bs =>
      if a.toNat < b.toNat then true
      else if b.toNat < a.toNat then false
      else listLeB as bs

/-- String comparison `a ≤ b` for the name sort. -/
def strLeB (a b : String) : Bool :=
  listLeB a.data b.data

/-- Stable insertion into a sorted list. -/
def insertSorted {α : Type} (le : α → α → Bool) (x : α) : List α → List α
  | [] => [x]
  | y :: ys => if le x y then x :: y :: ys else y :: insertSorted le x ys

/-- Stable insertion sort.  Rust's `sort_by` is a stable sort, and a stable
sort by a total comparator is a unique function of its input, so this model
is extensionally the sort the source performs. -/
def sortStable {α : Type} (le : α → α → Bool) : List α → List α
  | [] => []
  | x :: xs => insertSorted le x (sortStable le xs)

/-- The sorted copy built by `OfficialV2Provider::split_index`
(officialv2.rs lines 133-145): shuffle for `Random` (the `shuffle` oracle
stands for this call's use of the thread rng), ascending name order for
`Name`, reversed ingestion order for `Time`. -/
def sortedIndex (shuffle : List IndexV2 → List IndexV2) (sort : SortRuleV2)
    (index : List IndexV2) : List IndexV2 :=
  match sort with
  | .Random => shuffle index
  | .Name => sortStable (fun a b => strLeB a.name b.name) index
  | .Time => index.reverse

/-- The provider's mutable caches (`OfficialV2Provider`), as one record:
each `ArcSwap` cell becomes a field of an explicit state value. -/
structure Provider where
  cdn : GitHubCdn
  index : List IndexV2
  splited_index : List (List IndexV2)
  splited_limit : Nat
  device_map : DeviceMapV2
  explore : Json
  state : ProviderState
  placeholderIndex : Nat

/-- The provider built by `OfficialV2Provider::new` (initial state
`Updating`, empty caches, counter zero). -/
def Provider.new (cdn : GitHubCdn) : Provider :=
  { cdn := cdn, index := [], splited_index := [], splited_limit := 0,
    device_map := { xiaomi := [], vivo := [] }, explore := Json.null,
    state := .Updating, placeholderIndex := 0 }

/-- Embedding of `OfficialV2Provider::split_index` (officialv2.rs lines
132-153); `none` models the `chunks(0)` panic. -/
def split_index (shuffle : List IndexV2 → List IndexV2) (p : Provider)
    (limit : Nat) (sort : SortRuleV2) : Option Provider :=
  (chunkList limit (sortedIndex shuffle sort p.index)).map
    (fun chunks => { p with splited_index := chunks, splited_limit := limit })

/-- Bitwise complement of a `usize` value (64-bit), the meaning of the `!`
applied to `*self.splited_limit.load()` in `get_page`. -/
def usizeNot (x : Nat) : Nat :=
  (2 ^ 64 - 1) - x % 2 ^ 64

/-- The fixed index CSV location fetched by `refresh`. -/
def indexCsvUrl : String :=
  "https://raw.githubusercontent.com/AstralSightStudios/AstroBox-Repo/refs/heads/main/index_v2.csv"

/-- The fixed device map location fetched by `refresh`. -/
def devicesJsonUrl : String :=
  "https://raw.githubusercontent.com/AstralSightStudios/AstroBox-Repo/refs/heads/main/devices_v2.json"

/-- The fixed explore payload location fetched by `refresh`. -/
def exploreJsonUrl : String :=
  "https://raw.githubusercontent.com/AstralSightStudios/AstroBox-Repo/refs/heads/main/explore_v2.json"

/-- Oracles for one `refresh` call: the HTTP client, the csv crate's
per-row deserialization of the index body (`none` entries are rows whose
parse failed), serde's parse of the device map and of the explore payload,
and this call's use of the random number generator. -/
structure RefreshEnv where
  http : String → Option HttpResponse
  parseCsvRows : String → List (Option IndexV2)
  parseDeviceMap : String → Option DeviceMapV2
  parseJsonText : String → Option Json
  shuffle : List IndexV2 → List IndexV2

/-- Embedding of `OfficialV2Provider::refresh` (officialv2.rs lines
239-284).  The `cfg` argument is the parsed form of the config text
(`none` when the text is not valid JSON).  Every early `?` return leaves
the state as previously stored - the source never stores `Failed`. -/
def refresh (env : RefreshEnv) (cfg : Option Json) (p : Provider) :
    Except String Unit × Provider :=
  let p := { p with state := .Updating }
  let cdn := selectCdn cfg
  let p := { p with cdn := cdn }
  match env.http (convert_url cdn indexCsvUrl) with
  | none => (.error "index request send failed", p)
  | some resp =>
    if is_error_status resp.status then (.error "index request status error", p)
    else
      let rows := env.parseCsvRows resp.body
      let out := processRows rows p.placeholderIndex
      let p := { p with index := out.1, placeholderIndex := out.2 }
      match split_index env.shuffle p 114514 .Random with
      | none => (.error "unreachable: chunk size 114514 is positive", p)
      | some p =>
        match env.http (convert_url cdn devicesJsonUrl) with
        | none => (.error "device map request send failed", p)
        | some resp =>
          if is_error_status resp.status then (.error "device map request status error", p)
          else
            match env.parseDeviceMap resp.body with
            | none => (.error "device map parse failed", p)
            | some map =>
              let p := { p with device_map := map }
              match env.http (convert_url cdn exploreJsonUrl) with
              | none => (.error "explore request send failed", p)
              | some resp =>
                if is_error_status resp.status then (.error "explore request status error", p)
                else
                  match env.parseJsonText resp.body with
                  | none => (.error "explore parse failed", p)
                  | some explore =>
                    (.ok (), { p with explore := explore, state := .Ready })

/-- The projection of one retained index entry into a `ManifestItemV2`
summary (officialv2.rs lines 318-341). -/
def pageItem (cdn : GitHubCdn) (item : IndexV2) : ManifestItemV2 :=
  let base := build_repo_cdn_url_by_index_item cdn item
  { ManifestItemV2.default with
    id := item.id
    name := item.name
    preview := [base ++ "/" ++ item.cover]
    icon := base ++ "/" ++ item.icon
    cover := base ++ "/" ++ item.cover
    restype := item.restype }

/-- The page extraction and filtering of `get_page` after the rebuild
decision (officialv2.rs lines 296-343). -/
def pageResult (p : Provider) (page : Nat) (search : SearchConfig) : List ManifestItemV2 :=
  if p.splited_index.length ≤ page then []
  else
    let target_page := p.splited_index.getD page []
    let target_page :=
      match search.category with
      | some categories =>
          target_page.filter (fun (item : IndexV2) => item.devices.any (fun d => categories.contains d))
      | none => target_page
    let target_page :=
      match search.filter with
      | some keyword =>
          target_page.filter (fun (item : IndexV2) =>
            strContains item.name keyword || item.tags.any (fun tag => strContains tag keyword))
      | none => target_page
    target_page.map (pageItem p.cdn)

/-- Embedding of `OfficialV2Provider::get_page` (officialv2.rs lines
286-344).  The rebuild guard is the source's `!cached != limit` with a
bitwise `!` on `usize`; `none` models the `chunks(0)` panic inside the
rebuild. -/
def get_page (shuffle : List IndexV2 → List IndexV2) (p : Provider)
    (page : Nat) (limit : Nat) (search : SearchConfig) :
    Option (List ManifestItemV2 × Provider) :=
  if usizeNot p.splited_limit ≠ limit then
    match split_index shuffle p limit search.sort with
    | none => none
    | some p1 => some (pageResult p1 page search, p1)
  else
    some (pageResult p page search, p)

/-- A URL that contains the canonical raw-content prefix but does not start
with it. -/
def cexUrl : String := "xhttps://raw.githubusercontent.com/a/b"

/-- A config object whose `cdn` field names a CDN variant while another
field fails to deserialize as one. -/
def cexCfg : Json := Json.obj [("cdn", Json.str "GhFast"), ("x", Json.num 1)]

/-- A refresh oracle whose every request succeeds and whose every body
parses. -/
def envAllOk : RefreshEnv :=
  { http := fun _ => some { status := 200, body := "" }
    parseCsvRows := fun _ => []
    parseDeviceMap := fun _ => some { xiaomi := [], vivo := [] }
    parseJsonText := fun _ => some Json.null
    shuffle := id }

/-- A refresh oracle whose every request reports HTTP 500. -/
def envHttp500 : RefreshEnv :=
  { http := fun _ => some { status := 500, body := "" }
    parseCsvRows := fun _ => []
    parseDeviceMap := fun _ => none
    parseJsonText := fun _ => none
    shuffle := id }

/-- A one-row index used by the concrete pagination and download runs. -/
def witItem : IndexV2 :=
  { id := "w1", name := "Alpha", restype := .WatchFace, repo_owner := "o",
    repo_name := "r", repo_commit_hash := "c", icon := "i.png",
    cover := "c.png", tags := ["t"], device_vendors := ["xiaomi"],
    devices := ["d1", "d2"], paid_type := .Free }

/-- A second index row, lexicographically later by name. -/
def witItem2 : IndexV2 :=
  { witItem with id := "w2", name := "Beta" }

/-- An index row carrying the sentinel placeholder id. -/
def witPh : IndexV2 :=
  { witItem with id := "<placeholder>" }

/-- A provider holding the two concrete rows, as left by a refresh. -/
def witProv : Provider :=
  { Provider.new .Raw with index := [witItem2, witItem], state := .Ready }

/-- A provider whose cached page size already equals the requested limit
while its cached pages are stale. -/
def witProvStale : Provider :=
  { Provider.new .Raw with
    index := [witItem]
    splited_index := [[witItem2]]
    splited_limit := 1 }

/-- The name-sorted search used by the concrete pagination runs. -/
def witSearch : SearchConfig :=
  { filter := none, sort := .Name, category := none }

/-- First concrete `get_page` call on `witProv`. -/
def witPage1 : List ManifestItemV2 × Provider :=
  (get_page id witProv 0 1 witSearch).getD ([], witProv)

/-- Second concrete `get_page` call, on the state the first call left. -/
def witPage2 : List ManifestItemV2 × Provider :=
  (get_page id witPage1.2 0 1 witSearch).getD ([], witProv)

/-- One concrete `get_page` call with the stale cache of `witProvStale`. -/
def witPageStale : List ManifestItemV2 × Provider :=
  (get_page id witProvStale 0 1 witSearch).getD ([], witProvStale)

/-- A manifest with a single `default` download entry, delivered by the
fetch oracle of `dlEnvOk`. -/
def witManifest : ManifestV2 :=
  { item := ManifestItemV2.default
    links := []
    downloads := [("default",
      { version := "1", file_name := "a.bin", url := none, sha256 := none,
        display_name := none, updatelogs := none })]
    ext := Json.null }

/-- A fetch oracle delivering `witManifest` for every manifest request. -/
def witFetch : FetchEnv :=
  { http := fun _ => some { status := 200, body := "m" }
    parseJsonText := fun _ => none
    parseManifestV2 := fun _ => some witManifest }

/-- A download oracle for a fully successful two-chunk transfer. -/
def dlEnvOk : DownloadEnv :=
  { fetch := witFetch
    artifactStatus := fun _ => some 200
    stream := [.chunkOk [1, 2], .chunkOk [3]]
    createDirOk := true
    createTmpOk := true
    flushOk := true
    renameOk := true
    cacheRoot := some ["root"]
    nanos := 0 }

/-- A download oracle whose artifact request reports HTTP 404. -/
def dlEnvErr : DownloadEnv :=
  { dlEnvOk with artifactStatus := fun _ => some 404 }

/-- The empty filesystem. -/
def fsEmpty : FileSys := fun _ => none

/-- The temporary path the concrete download runs use. -/
def dlTmpPath : FsPath := ["root", "community", "official_v2", "w1", "0.a.bin.part"]

/-- The final path the concrete download runs use. -/
def dlFinalPath : FsPath := ["root", "community", "official_v2", "w1", "a.bin"]

/-- Whether a path's file name carries the temporary `.part` suffix. -/
def pathIsPartFile (q : FsPath) : Bool :=
  (q.getLast?.map (fun s => strEndsWith s ".part")).getD false

/-- A fetch oracle for the concrete manifest-fallback run: 404 for
`manifest_v2.json`, a parseable legacy body for `manifest.json`. -/
def witFetch404 : FetchEnv :=
  { http := fun u => if strEndsWith u "/manifest_v2.json" then some { status := 404, body := "" }
      else some { status := 200, body := "v1" }
    parseJsonText := fun _ => some (Json.obj [("downloads",
      Json.obj [("n62", Json.obj [("version", Json.str "1"), ("file_name", Json.str "f")])])])
    parseManifestV2 := fun _ => none }

/-- The concrete failed download run used by the atomicity witness. -/
def dlRunErr : Except String FsPath × FileSys :=
  download dlEnvErr [witItem] .Raw "w1" "devX" fsEmpty

/-- Specification-side count of the rows a refresh treats as placeholder
rows: successfully parsed rows carrying the sentinel id. -/
def countPlaceholders (rows : List (Option IndexV2)) : Nat :=
  rows.countP (fun r =>
    match r with
    | some i => i.id = "<placeholder>"
    | none => false)

/-- Specification-side description of the ingestion output: parse failures
dropped, each sentinel row's id replaced by `placeholder_<n>` for the next
entry `n` of `ns`, every other row kept as is. -/
def mergeIds : List (Option IndexV2) → List Nat → List IndexV2
  | [], _ => []
  | none :: rest, ns => mergeIds rest ns
  | some i :: rest, ns =>
      if i.id = "<placeholder>" then
        match ns with
        | [] => []
        | n :: ns1 => { i with id := "placeholder_" ++ natToString n } :: mergeIds rest ns1
      else
        i :: mergeIds rest ns


theorem isPref_append_self (l r : List Char) : isPref l (l ++ r) = true := by
  induction l with
  | nil => rfl
  | cons a as ih => simp [isPref, ih]

theorem strEndsWith_append (s t : String) : strEndsWith (s ++ t) t = true := by
  simp only [strEndsWith, String.data_append, List.reverse_append]
  exact isPref_append_self _ _

theorem usizeNot_ne_self (x : Nat) : usizeNot x ≠ x := by
  simp only [usizeNot]
  omega

theorem usizeNot_ne_of_small {cached limit : Nat} (hc : cached < 2 ^ 32)
    (hl : limit < 2 ^ 32) : usizeNot cached ≠ limit := by
  simp only [usizeNot]
  omega

theorem split_index_fields {shuffle : List IndexV2 → List IndexV2} {p p' : Provider}
    {limit : Nat} {sort : SortRuleV2}
    (h : split_index shuffle p limit sort = some p') :
    p' = { p with
             splited_index := chunksGo limit (sortedIndex shuffle sort p.index) []
             splited_limit := limit } ∧ limit ≠ 0 := by
  unfold split_index chunkList at h
  by_cases hz : limit = 0
  · simp [hz] at h
  · simp [hz] at h
    exact ⟨h.symm, hz⟩

theorem split_index_pos {shuffle : List IndexV2 → List IndexV2} {p : Provider}
    {limit : Nat} {sort : SortRuleV2} (h : limit ≠ 0) :
    split_index shuffle p limit sort =
      some { p with
               splited_index := chunksGo limit (sortedIndex shuffle sort p.index) []
               splited_limit := limit } := by
  unfold split_index chunkList
  simp [h]

theorem sortedIndex_no_shuffle {sh1 sh2 : List IndexV2 → List IndexV2}
    {sort : SortRuleV2} (h : sort = .Name ∨ sort = .Time) (idx : List IndexV2) :
    sortedIndex sh1 sort idx = sortedIndex sh2 sort idx := by
  rcases h with h | h <;> subst h <;> rfl

theorem pageResult_congr {p q : Provider} (hs : p.splited_index = q.splited_index)
    (hc : p.cdn = q.cdn) (page : Nat) (search : SearchConfig) :
    pageResult p page search = pageResult q page search := by
  unfold pageResult
  rw [hs, hc]

theorem digitChar_inj_lt10 : ∀ a < 10, ∀ b < 10, Nat.digitChar a = Nat.digitChar b → a = b := by
  decide

theorem map_digitChar_inj :
    ∀ l1 l2 : List Nat, (∀ d ∈ l1, d < 10) → (∀ d ∈ l2, d < 10) →
      l1.map Nat.digitChar = l2.map Nat.digitChar → l1 = l2 := by
  intro l1
  induction l1 with
  | nil =>
      intro l2 _ _ h
      cases l2 with
      | nil => rfl
      | cons b bs => simp at h
  | cons a as ih =>
      intro l2 h1 h2 h
      cases l2 with
      | nil => simp at h
      | cons b bs =>
          simp only [List.map_cons, List.cons.injEq] at h
          have ha : a < 10 := h1 a (List.mem_cons_self _ _)
          have hb : b < 10 := h2 b (List.mem_cons_self _ _)
          have hab := digitChar_inj_lt10 a ha b hb h.1
          have htl := ih bs (fun d hd => h1 d (List.mem_cons_of_mem _ hd))
            (fun d hd => h2 d (List.mem_cons_of_mem _ hd)) h.2
          rw [hab, htl]

theorem natToString_pos_data {n : Nat} (h : n ≠ 0) :
    (natToString n).data = ((Nat.digits 10 n).map Nat.digitChar).reverse := by
  simp [natToString, h]

theorem natToString_inj : Function.Injective natToString := by
  intro a b h
  by_cases ha : a = 0 <;> by_cases hb : b = 0
  · rw [ha, hb]
  · exfalso
    have hd := congrArg String.data h
    rw [ha] at hd
    simp only [natToString, if_pos rfl, if_neg hb] at hd
    have hd2 : ['0'] = ((Nat.digits 10 b).map Nat.digitChar).reverse := hd
    have hd3 : ['0'].reverse = (Nat.digits 10 b).map Nat.digitChar := by
      rw [hd2, List.reverse_reverse]
    have hd4 : (Nat.digits 10 b).map Nat.digitChar = ['0'] := by
      rw [← hd3]
      rfl
    have : Nat.digits 10 b = [0] := by
      apply map_digitChar_inj _ [0]
      · intro d hd5
        exact Nat.digits_lt_base (by norm_num) hd5
      · intro d hd5
        simp at hd5
        omega
      · rw [hd4]
        rfl
    have hb0 : b = Nat.ofDigits 10 (Nat.digits 10 b) := (Nat.ofDigits_digits 10 b).symm
    rw [this] at hb0
    simp [Nat.ofDigits] at hb0
    exact hb hb0
  · exfalso
    have hd := congrArg String.data h
    rw [hb] at hd
    simp only [natToString, if_pos rfl, if_neg ha] at hd
    have hd2 : ((Nat.digits 10 a).map Nat.digitChar).reverse = ['0'] := hd
    have hd4 : (Nat.digits 10 a).map Nat.digitChar = ['0'] := by
      rw [← List.reverse_reverse ((Nat.digits 10 a).map Nat.digitChar), hd2]
      rfl
    have : Nat.digits 10 a = [0] := by
      apply map_digitChar_inj _ [0]
      · intro d hd5
        exact Nat.digits_lt_base (by norm_num) hd5
      · intro d hd5
        simp at hd5
        omega
      · rw [hd4]
        rfl
    have ha0 : a = Nat.ofDigits 10 (Nat.digits 10 a) := (Nat.ofDigits_digits 10 a).symm
    rw [this] at ha0
    simp [Nat.ofDigits] at ha0
    exact ha ha0
  · have hd := congrArg String.data h
    rw [natToString_pos_data ha, natToString_pos_data hb] at hd
    rw [List.reverse_inj] at hd
    have := map_digitChar_inj _ _
      (fun d hd5 => Nat.digits_lt_base (by norm_num) hd5)
      (fun d hd5 => Nat.digits_lt_base (by norm_num) hd5) hd
    exact Nat.digits.injective 10 this

theorem natToString_length_pos (n : Nat) : 0 < (natToString n).length := by
  by_cases h : n = 0
  · subst h
    decide
  · simp only [natToString, if_neg h, String.length_mk, List.length_reverse,
      List.length_map]
    have : Nat.digits 10 n ≠ [] := Nat.digits_ne_nil_iff_ne_zero.mpr h
    cases hd : Nat.digits 10 n with
    | nil => exact absurd hd this
    | cons x xs => simp

theorem placeholderId_inj {a b : Nat}
    (h : "placeholder_" ++ natToString a = "placeholder_" ++ natToString b) : a = b := by
  have hd := congrArg String.data h
  simp only [String.data_append] at hd
  have := List.append_cancel_left hd
  exact natToString_inj (by apply String.ext; exact this)

theorem processRows_eq (rows : List (Option IndexV2)) :
    ∀ counter : Nat, counter < 2 ^ 32 →
      counter + countPlaceholders rows ≤ 2 ^ 32 →
      processRows rows counter =
        (mergeIds rows (List.range' counter (countPlaceholders rows)),
         (counter + countPlaceholders rows) % 2 ^ 32) := by
  induction rows with
  | nil =>
      intro counter hsmall hno
      have h0 : countPlaceholders ([] : List (Option IndexV2)) = 0 := rfl
      rw [h0, Nat.add_zero, Nat.mod_eq_of_lt hsmall]
      rfl
  | cons r rest ih =>
      intro counter hsmall hno
      cases r with
      | none =>
          have hc : countPlaceholders (none :: rest) = countPlaceholders rest := by
            simp [countPlaceholders, List.countP_cons]
          rw [hc] at hno
          simp only [processRows, mergeIds, hc]
          exact ih counter hsmall hno
      | some i =>
          by_cases hp : i.id = "<placeholder>"
          · have hc : countPlaceholders (some i :: rest) = countPlaceholders rest + 1 := by
              simp [countPlaceholders, List.countP_cons, hp]
            have hcm : counter % 2 ^ 32 = counter := Nat.mod_eq_of_lt hsmall
            rw [hc] at hno ⊢
            simp only [processRows, if_pos hp, hcm, List.range'_succ]
            by_cases hwrap : counter + 1 < 2 ^ 32
            · have hstep : (counter + 1) % 2 ^ 32 = counter + 1 := Nat.mod_eq_of_lt hwrap
              rw [hstep, ih (counter + 1) hwrap (by omega)]
              simp only [mergeIds, if_pos hp, Prod.mk.injEq]
              refine ⟨trivial, ?_⟩
              have harith : counter + 1 + countPlaceholders rest =
                  counter + (countPlaceholders rest + 1) := by omega
              rw [harith]
            · have hk0 : countPlaceholders rest = 0 := by omega
              have hstep : (counter + 1) % 2 ^ 32 = 0 := by omega
              rw [hstep, ih 0 (by norm_num) (by omega), hk0]
              simp only [mergeIds, if_pos hp, List.range'_zero, Prod.mk.injEq]
              refine ⟨trivial, ?_⟩
              omega
          · have hc : countPlaceholders (some i :: rest) = countPlaceholders rest := by
              simp [countPlaceholders, List.countP_cons, hp]
            rw [hc] at hno ⊢
            simp only [processRows, if_neg hp, ih counter hsmall hno, mergeIds, Prod.mk.injEq]

theorem streamLoop_frame (tmp : FsPath) (evs : List StreamEv) :
    ∀ fs q, q ≠ tmp → (streamLoop tmp evs fs).2 q = fs q := by
  induction evs with
  | nil =>
      intro fs q _
      rfl
  | cons ev rest ih =>
      intro fs q hq
      cases ev with
      | readErr => rfl
      | writeErr => rfl
      | chunkOk data =>
          simp only [streamLoop]
          rw [ih _ q hq]
          simp [fsSet, hq]

theorem streamLoop_ok_shape (tmp : FsPath) (evs : List StreamEv) :
    ∀ fs u fs1, streamLoop tmp evs fs = (.ok u, fs1) →
      ∃ datas : List (List Nat), evs = datas.map StreamEv.chunkOk := by
  induction evs with
  | nil =>
      intro fs u fs1 _
      exact ⟨[], rfl⟩
  | cons ev rest ih =>
      intro fs u fs1 h
      cases ev with
      | readErr => simp [streamLoop] at h
      | writeErr => simp [streamLoop] at h
      | chunkOk data =>
          obtain ⟨datas, hd⟩ := ih _ u fs1 h
          exact ⟨data :: datas, by simp [hd]⟩

theorem streamLoop_content (tmp : FsPath) (datas : List (List Nat)) :
    ∀ fs cur, fs tmp = some cur →
      streamLoop tmp (datas.map StreamEv.chunkOk) fs =
        (.ok (), (streamLoop tmp (datas.map StreamEv.chunkOk) fs).2) ∧
      (streamLoop tmp (datas.map StreamEv.chunkOk) fs).2 tmp = some (cur ++ datas.flatten) := by
  induction datas with
  | nil =>
      intro fs cur hcur
      refine ⟨rfl, ?_⟩
      simp [streamLoop, hcur]
  | cons d rest ih =>
      intro fs cur hcur
      have hstep : (fsSet fs tmp (((fs tmp).getD []) ++ d)) tmp = some (cur ++ d) := by
        simp [fsSet, hcur]
      obtain ⟨h1, h2⟩ := ih _ _ hstep
      constructor
      · simp only [List.map_cons, streamLoop]
        exact h1
      · simp only [List.map_cons, streamLoop]
        rw [h2]
        simp

theorem append_singleton_ne {dir : FsPath} {a b : String} (h : a ≠ b) :
    dir ++ [a] ≠ dir ++ [b] := by
  intro heq
  have := List.append_cancel_left heq
  simp at this
  exact h this

theorem tmpName_ne_safe (n : Nat) (safe : String) :
    natToString n ++ "." ++ safe ++ ".part" ≠ safe := by
  intro h
  have hlen := congrArg String.length h
  have hdot : ("." : String).length = 1 := rfl
  have hpart : (".part" : String).length = 5 := rfl
  simp only [String.length_append, hdot, hpart] at hlen
  have hpos := natToString_length_pos n
  omega

theorem pathIsPartFile_concat (dir : FsPath) (s : String) :
    pathIsPartFile (dir ++ [s ++ ".part"]) = true := by
  simp only [pathIsPartFile, List.getLast?_concat, Option.map_some]
  simp [strEndsWith_append]

theorem downloadAttempt_ok {env : DownloadEnv} {url : String} {tmp final : FsPath}
    {fs : FileSys} {p : FsPath} {fs1 : FileSys} (hne : tmp ≠ final)
    (h : downloadAttempt env url tmp final fs = (.ok p, fs1)) :
    p = final ∧
    (∃ datas : List (List Nat),
      env.stream = datas.map StreamEv.chunkOk ∧ fs1 final = some datas.flatten) ∧
    fs1 tmp = none ∧
    (∀ q, q ≠ tmp → q ≠ final → fs1 q = fs q) := by
  unfold downloadAttempt at h
  by_cases hct : env.createTmpOk
  · simp only [hct, not_true, if_neg, ite_false] at h
    cases hst : env.artifactStatus url with
    | none =>
        rw [hst] at h
        simp at h
    | some status =>
        rw [hst] at h
        by_cases herr : is_error_status status
        · simp [herr] at h
        · simp only [herr, Bool.false_eq_true, ite_false, if_neg] at h
          cases hsl : streamLoop tmp env.stream (fsSet fs tmp []) with
          | mk res fsS =>
              rw [hsl] at h
              cases res with
              | error e => simp at h
              | ok u =>
                  by_cases hfl : env.flushOk
                  · by_cases hrn : env.renameOk
                    · simp only [hfl, hrn, not_true, ite_false, if_neg] at h
                      have hp : p = final := by
                        have := congrArg Prod.fst h
                        simp at this
                        exact this.symm
                      have hfs1 : fs1 = fsRename fsS tmp final := by
                        have := congrArg Prod.snd h
                        simp at this
                        exact this.symm
                      obtain ⟨datas, hdatas⟩ := streamLoop_ok_shape tmp env.stream _ u fsS hsl
                      have hinit : (fsSet fs tmp []) tmp = some [] := by
                        simp [fsSet]
                      have hcontent := (streamLoop_content tmp datas (fsSet fs tmp []) [] hinit).2
                      rw [← hdatas, hsl] at hcontent
                      refine ⟨hp, ⟨datas, hdatas, ?_⟩, ?_, ?_⟩
                      · rw [hfs1]
                        have hren : fsRename fsS tmp final final = fsS tmp := by
                          simp [fsRename, Ne.symm hne]
                        rw [hren]
                        simpa using hcontent
                      · rw [hfs1]
                        simp [fsRename]
                      · intro q hq1 hq2
                        rw [hfs1]
                        simp only [fsRename, if_neg hq1, if_neg hq2]
                        have hfr := streamLoop_frame tmp env.stream (fsSet fs tmp []) q hq1
                        rw [hsl] at hfr
                        simp at hfr
                        rw [hfr]
                        simp [fsSet, hq1]
                    · simp [hfl, hrn] at h
                  · simp [hfl] at h
  · simp [hct] at h

theorem downloadAttempt_err {env : DownloadEnv} {url : String} {tmp final : FsPath}
    {fs : FileSys} {e : String} {fs1 : FileSys}
    (h : downloadAttempt env url tmp final fs = (.error e, fs1)) :
    ∀ q, q ≠ tmp → fs1 q = fs q := by
  intro q hq
  unfold downloadAttempt at h
  by_cases hct : env.createTmpOk
  · simp only [hct, not_true, ite_false, if_neg] at h
    cases hst : env.artifactStatus url with
    | none =>
        rw [hst] at h
        simp at h
        rw [← h.2]
        simp [fsSet, hq]
    | some status =>
        rw [hst] at h
        by_cases herr : is_error_status status
        · simp [herr] at h
          rw [← h.2]
          simp [fsSet, hq]
        · simp only [herr, Bool.false_eq_true, ite_false, if_neg] at h
          cases hsl : streamLoop tmp env.stream (fsSet fs tmp []) with
          | mk res fsS =>
              rw [hsl] at h
              have hfr := streamLoop_frame tmp env.stream (fsSet fs tmp []) q hq
              rw [hsl] at hfr
              simp only at hfr
              have hfr2 : fsS q = fs q := by
                rw [hfr]
                simp [fsSet, hq]
              cases res with
              | error e0 =>
                  simp at h
                  rw [← h.2, hfr2]
              | ok u =>
                  by_cases hfl : env.flushOk
                  · by_cases hrn : env.renameOk
                    · simp [hfl, hrn] at h
                    · simp [hfl, hrn] at h
                      rw [← h.2, hfr2]
                  · simp [hfl] at h
                    rw [← h.2, hfr2]
  · simp only [hct, not_false_eq_true, if_pos, ite_true] at h
    simp at h
    rw [← h.2]

/-- C3: a successful `download` leaves the final file
`<cache_root>/community/official_v2/<item_id>/<sanitized_name>` holding the
complete streamed content with the temporary `.part` file gone, and a
failed `download` removes the temporary `.part` file and leaves every
other path (in particular any previously committed final file) exactly as
it was, creating no final file. -/
theorem download_atomic (env : DownloadEnv) (index : List IndexV2) (cdn : GitHubCdn)
    (item_id device : String) (fs : FileSys)
    (hfresh : ∀ q, pathIsPartFile q = true → fs q = none) :
    (∀ p fs1, download env index cdn item_id device fs = (.ok p, fs1) →
      ∃ item file_name resolved_url root,
        downloadPrepare env index cdn item_id device = .ok (item, file_name, resolved_url) ∧
        env.cacheRoot = some root ∧
        p = root ++ ["community", "official_v2", item.id] ++
          [sanitize_local_filename file_name] ∧
        (∃ datas : List (List Nat), env.stream = datas.map StreamEv.chunkOk ∧
          fs1 p = some datas.flatten) ∧
        fs1 (root ++ ["community", "official_v2", item.id] ++
          [natToString env.nanos ++ "." ++ sanitize_local_filename file_name ++ ".part"]) =
            none ∧
        (∀ q, q ≠ p →
          q ≠ root ++ ["community", "official_v2", item.id] ++
            [natToString env.nanos ++ "." ++ sanitize_local_filename file_name ++ ".part"] →
          fs1 q = fs q)) ∧
    (∀ e fs1, download env index cdn item_id device fs = (.error e, fs1) →
      (∀ q, pathIsPartFile q = true → fs1 q = none) ∧
      (∀ q, pathIsPartFile q = false → fs1 q = fs q)) := by
  constructor
  · intro p fs1 h
    unfold download at h
    cases hprep : downloadPrepare env index cdn item_id device with
    | error e =>
        rw [hprep] at h
        simp at h
    | ok t =>
        obtain ⟨item, file_name, resolved_url⟩ := t
        rw [hprep] at h
        cases hroot : env.cacheRoot with
        | none =>
            rw [hroot] at h
            simp at h
        | some root =>
            rw [hroot] at h
            by_cases hcd : env.createDirOk
            · simp only [hcd, not_true, ite_false, if_neg] at h
              cases hatt : downloadAttempt env resolved_url
                  (root ++ ["community", "official_v2", item.id] ++
                    [natToString env.nanos ++ "." ++ sanitize_local_filename file_name ++ ".part"])
                  (root ++ ["community", "official_v2", item.id] ++
                    [sanitize_local_filename file_name]) fs with
              | mk res fsA =>
                  rw [hatt] at h
                  cases res with
                  | error e0 => simp at h
                  | ok p0 =>
                      simp only [Prod.mk.injEq, Except.ok.injEq] at h
                      obtain ⟨hp0, hfs1⟩ := h
                      have hne :
                          root ++ ["community", "official_v2", item.id] ++
                            [natToString env.nanos ++ "." ++
                              sanitize_local_filename file_name ++ ".part"] ≠
                          root ++ ["community", "official_v2", item.id] ++
                            [sanitize_local_filename file_name] :=
                        append_singleton_ne (tmpName_ne_safe env.nanos _)
                      have hspec := downloadAttempt_ok hne hatt
                      obtain ⟨hpf, ⟨datas, hd, hcont⟩, htmp, hframe⟩ := hspec
                      refine ⟨item, file_name, resolved_url, root, rfl, rfl, ?_, ?_, ?_, ?_⟩
                      · rw [← hp0, hpf]
                      · refine ⟨datas, hd, ?_⟩
                        rw [← hfs1, ← hp0, hpf]
                        exact hcont
                      · rw [← hfs1]
                        exact htmp
                      · intro q hq1 hq2
                        rw [← hfs1]
                        apply hframe
                        · exact hq2
                        · rw [← hp0, hpf] at hq1
                          exact hq1
            · simp [hcd] at h
  · intro e fs1 h
    unfold download at h
    cases hprep : downloadPrepare env index cdn item_id device with
    | error e1 =>
        rw [hprep] at h
        simp only [Prod.mk.injEq, Except.error.injEq] at h
        obtain ⟨he, hfs1⟩ := h
        rw [← hfs1]
        exact ⟨fun q hq => hfresh q hq, fun q _ => rfl⟩
    | ok t =>
        obtain ⟨item, file_name, resolved_url⟩ := t
        rw [hprep] at h
        cases hroot : env.cacheRoot with
        | none =>
            rw [hroot] at h
            simp only [Prod.mk.injEq, Except.error.injEq] at h
            obtain ⟨he, hfs1⟩ := h
            rw [← hfs1]
            exact ⟨fun q hq => hfresh q hq, fun q _ => rfl⟩
        | some root =>
            rw [hroot] at h
            by_cases hcd : env.createDirOk
            · simp only [hcd, not_true, ite_false, if_neg] at h
              cases hatt : downloadAttempt env resolved_url
                  (root ++ ["community", "official_v2", item.id] ++
                    [natToString env.nanos ++ "." ++ sanitize_local_filename file_name ++ ".part"])
                  (root ++ ["community", "official_v2", item.id] ++
                    [sanitize_local_filename file_name]) fs with
              | mk res fsA =>
                  rw [hatt] at h
                  cases res with
                  | ok p0 => simp at h
                  | error e0 =>
                      simp only [Prod.mk.injEq, Except.error.injEq] at h
                      obtain ⟨he, hfs1⟩ := h
                      have hfr := downloadAttempt_err hatt
                      have htmp_part : pathIsPartFile
                          (root ++ ["community", "official_v2", item.id] ++
                            [natToString env.nanos ++ "." ++
                              sanitize_local_filename file_name ++ ".part"]) = true :=
                        pathIsPartFile_concat
                          (root ++ ["community", "official_v2", item.id])
                          (natToString env.nanos ++ "." ++ sanitize_local_filename file_name)
                      constructor
                      · intro q hq
                        rw [← hfs1]
                        by_cases hqt : q =
                            root ++ ["community", "official_v2", item.id] ++
                              [natToString env.nanos ++ "." ++
                                sanitize_local_filename file_name ++ ".part"]
                        · rw [hqt]
                          simp [fsRemove]
                        · simp only [fsRemove, if_neg hqt]
                          rw [hfr q hqt]
                          exact hfresh q hq
                      · intro q hq
                        have hqt : q ≠
                            root ++ ["community", "official_v2", item.id] ++
                              [natToString env.nanos ++ "." ++
                                sanitize_local_filename file_name ++ ".part"] := by
                          intro hcontra
                          rw [hcontra, htmp_part] at hq
                          exact Bool.noConfusion hq
                        rw [← hfs1]
                        simp only [fsRemove, if_neg hqt]
                        exact hfr q hqt
            · simp only [hcd, Bool.false_eq_true, not_false_eq_true, ite_true,
                Prod.mk.injEq, Except.error.injEq] at h
              rw [← h.2]
              exact ⟨fun q hq => hfresh q hq, fun q _ => rfl⟩

theorem download_atomic_witness : dlRunErr.2 dlTmpPath = none := by
  have h := download_atomic dlEnvErr [witItem] .Raw "w1" "devX" fsEmpty (fun q _ => rfl)
  have he : download dlEnvErr [witItem] .Raw "w1" "devX" fsEmpty =
      (.error "download request returned error for https://raw.githubusercontent.com/o/r/c/a.bin",
       dlRunErr.2) := rfl
  exact (h.2 _ _ he).1 dlTmpPath (by decide)

/-- C4: the download-entry selection of `download` takes the exact device
key when present, else the `"default"` key, else the first entry in
iteration order, and yields no entry exactly when the downloads map is
empty. -/
theorem select_download_entry_spec (downloads : List (String × ManifestDownloadV2))
    (device : String) :
    (∀ d, assocLookup downloads device = some d →
      select_download_entry downloads device = some d) ∧
    (assocLookup downloads device = none →
      ∀ d, assocLookup downloads "default" = some d →
        select_download_entry downloads device = some d) ∧
    (assocLookup downloads device = none → assocLookup downloads "default" = none →
      select_download_entry downloads device = downloads.head?.map Prod.snd) ∧
    (select_download_entry downloads device = none ↔ downloads = []) := by
  refine ⟨?_, ?_, ?_, ?_, ?_⟩
  · intro d h
    simp [select_download_entry, h, Option.orElse]
  · intro h d h2
    simp [select_download_entry, h, h2, Option.orElse]
  · intro h h2
    simp [select_download_entry, h, h2, Option.orElse]
  · intro h
    cases hdl : downloads with
    | nil => rfl
    | cons kv rest =>
        exfalso
        rw [hdl] at h
        cases h1 : assocLookup (kv :: rest) device with
        | some d => simp [select_download_entry, h1, Option.orElse] at h
        | none =>
            cases h2 : assocLookup (kv :: rest) "default" with
            | some d => simp [select_download_entry, h1, h2, Option.orElse] at h
            | none => simp [select_download_entry, h1, h2, Option.orElse] at h
  · intro h
    subst h
    rfl

theorem manifestUrl_ne (b : String) : b ++ "/manifest.json" ≠ b ++ "/manifest_v2.json" := by
  intro h
  have hlen := congrArg String.length h
  have h1 : ("/manifest.json" : String).length = 14 := rfl
  have h2 : ("/manifest_v2.json" : String).length = 17 := rfl
  simp only [String.length_append, h1, h2] at hlen
  omega

/-- C5: `get_manifest` requests `manifest_v2.json` first; it requests the
legacy `manifest.json` exactly when that first response carries HTTP 404,
in which case it parses the legacy body and returns its v1-to-v2
conversion; any other non-success status on either request, and any body
parse failure, yields an error instead of a fallback. -/
theorem get_manifest_fallback_spec (env : FetchEnv) (cdn : GitHubCdn)
    (owner name commit_hash : String) :
    ((get_manifest env cdn owner name commit_hash).2.head? =
      some (manifestV2Url cdn owner name commit_hash)) ∧
    (manifestV1Url cdn owner name commit_hash ∈
        (get_manifest env cdn owner name commit_hash).2 ↔
      ∃ r, env.http (manifestV2Url cdn owner name commit_hash) = some r ∧ r.status = 404) ∧
    (∀ r2 r1 j, env.http (manifestV2Url cdn owner name commit_hash) = some r2 →
      r2.status = 404 →
      env.http (manifestV1Url cdn owner name commit_hash) = some r1 →
      is_error_status r1.status = false →
      env.parseJsonText r1.body = some j →
      (get_manifest env cdn owner name commit_hash).1 = .ok (manifest_v1_to_v2 j)) ∧
    (∀ r2 r1, env.http (manifestV2Url cdn owner name commit_hash) = some r2 →
      r2.status = 404 →
      env.http (manifestV1Url cdn owner name commit_hash) = some r1 →
      is_error_status r1.status = true →
      ∃ e, (get_manifest env cdn owner name commit_hash).1 = .error e) ∧
    (∀ r2 r1, env.http (manifestV2Url cdn owner name commit_hash) = some r2 →
      r2.status = 404 →
      env.http (manifestV1Url cdn owner name commit_hash) = some r1 →
      is_error_status r1.status = false →
      env.parseJsonText r1.body = none →
      ∃ e, (get_manifest env cdn owner name commit_hash).1 = .error e) ∧
    (∀ r2, env.http (manifestV2Url cdn owner name commit_hash) = some r2 →
      r2.status ≠ 404 → is_error_status r2.status = true →
      ∃ e, (get_manifest env cdn owner name commit_hash).1 = .error e) ∧
    (∀ r2, env.http (manifestV2Url cdn owner name commit_hash) = some r2 →
      r2.status ≠ 404 → is_error_status r2.status = false →
      (∀ m, env.parseManifestV2 r2.body = some m →
        (get_manifest env cdn owner name commit_hash).1 = .ok m) ∧
      (env.parseManifestV2 r2.body = none →
        ∃ e, (get_manifest env cdn owner name commit_hash).1 = .error e)) := by
  have hne : manifestV1Url cdn owner name commit_hash ≠
      manifestV2Url cdn owner name commit_hash :=
    manifestUrl_ne (build_repo_cdn_url cdn owner name commit_hash)
  refine ⟨?_, ?_, ?_, ?_, ?_, ?_, ?_⟩
  · unfold get_manifest
    cases hh2 : env.http (manifestV2Url cdn owner name commit_hash) with
    | none => rfl
    | some r2 =>
        by_cases h404 : r2.status = 404
        · simp only [h404, ite_true, if_pos rfl]
          cases hh1 : env.http (manifestV1Url cdn owner name commit_hash) with
          | none => rfl
          | some r1 =>
              by_cases herr1 : is_error_status r1.status
              · simp [herr1]
              · simp only [herr1, Bool.false_eq_true, ite_false, if_neg]
                cases hp : env.parseJsonText r1.body with
                | none => rfl
                | some j => rfl
        · simp only [h404, ite_false, if_neg]
          by_cases herr2 : is_error_status r2.status
          · simp [herr2]
          · simp only [herr2, Bool.false_eq_true, ite_false, if_neg]
            cases hp : env.parseManifestV2 r2.body with
            | none => rfl
            | some m => rfl
  · unfold get_manifest
    cases hh2 : env.http (manifestV2Url cdn owner name commit_hash) with
    | none => simp [hne]
    | some r2 =>
        by_cases h404 : r2.status = 404
        · simp only [h404, ite_true, if_pos rfl]
          cases hh1 : env.http (manifestV1Url cdn owner name commit_hash) with
          | none =>
              refine ⟨fun _ => ⟨r2, rfl, h404⟩, fun _ => ?_⟩
              simp
          | some r1 =>
              by_cases herr1 : is_error_status r1.status
              · simp only [herr1, ite_true, if_pos rfl]
                refine ⟨fun _ => ⟨r2, rfl, h404⟩, fun _ => ?_⟩
                simp
              · simp only [herr1, Bool.false_eq_true, ite_false, if_neg]
                cases hp : env.parseJsonText r1.body with
                | none =>
                    refine ⟨fun _ => ⟨r2, rfl, h404⟩, fun _ => ?_⟩
                    simp
                | some j =>
                    refine ⟨fun _ => ⟨r2, rfl, h404⟩, fun _ => ?_⟩
                    simp
        · have hrhs : ¬ ∃ r, (some r2 : Option HttpResponse) = some r ∧ r.status = 404 := by
            rintro ⟨r, hr, hst⟩
            cases hr
            exact h404 hst
          simp only [h404, ite_false, if_neg]
          by_cases herr2 : is_error_status r2.status
          · simp only [herr2, ite_true, if_pos rfl, List.mem_singleton]
            exact ⟨fun hm => absurd hm hne, fun hr => absurd hr hrhs⟩
          · simp only [herr2, Bool.false_eq_true, ite_false, if_neg]
            cases hp : env.parseManifestV2 r2.body with
            | none =>
                simp only [List.mem_singleton]
                exact ⟨fun hm => absurd hm hne, fun hr => absurd hr hrhs⟩
            | some m =>
                simp only [List.mem_singleton]
                exact ⟨fun hm => absurd hm hne, fun hr => absurd hr hrhs⟩
  · intro r2 r1 j h2 h404 h1 herr1 hj
    unfold get_manifest
    rw [h2]
    simp only [h404, ite_true, if_pos rfl]
    rw [h1]
    simp [herr1, hj]
  · intro r2 r1 h2 h404 h1 herr1
    unfold get_manifest
    rw [h2]
    simp only [h404, ite_true, if_pos rfl]
    rw [h1]
    simp [herr1]
  · intro r2 r1 h2 h404 h1 herr1 hp
    unfold get_manifest
    rw [h2]
    simp only [h404, ite_true, if_pos rfl]
    rw [h1]
    simp [herr1, hp]
  · intro r2 h2 h404 herr2
    unfold get_manifest
    rw [h2]
    simp [h404, herr2]
  · intro r2 h2 h404 herr2
    constructor
    · intro m hm
      unfold get_manifest
      rw [h2]
      simp [h404, herr2, hm]
    · intro hm
      unfold get_manifest
      rw [h2]
      simp [h404, herr2, hm]

/-- C8: the v1-to-v2 download re-keying maps each legacy hardware code of
the fixed table to its canonical device key and leaves every other key
unchanged. -/
theorem map_download_key_spec :
    (map_download_key_v1_to_v2 "n62" = "xmws3" ∧
     map_download_key_v1_to_v2 "o62" = "xmws4" ∧
     map_download_key_v1_to_v2 "o62m" = "xmws4xring" ∧
     map_download_key_v1_to_v2 "p62" = "xmws5" ∧
     map_download_key_v1_to_v2 "p62m" = "xmws5xring" ∧
     map_download_key_v1_to_v2 "o65" = "xmrw5" ∧
     map_download_key_v1_to_v2 "o65m" = "xmrw5xring" ∧
     map_download_key_v1_to_v2 "n66" = "xmb9" ∧
     map_download_key_v1_to_v2 "n67" = "xmb9p" ∧
     map_download_key_v1_to_v2 "o66" = "xmb10" ∧
     map_download_key_v1_to_v2 "o66nfc" = "xmb10nfc" ∧
     map_download_key_v1_to_v2 "p65" = "xmrw6") ∧
    (∀ k, k ∉ legacyDeviceKeys → map_download_key_v1_to_v2 k = k) := by
  constructor
  · refine ⟨rfl, rfl, rfl, rfl, rfl, rfl, rfl, rfl, rfl, rfl, rfl, rfl⟩
  · intro k hk
    simp only [legacyDeviceKeys, List.mem_cons, List.mem_singleton, not_or] at hk
    unfold map_download_key_v1_to_v2
    split <;> simp_all

/-- C2 counterexample: a URL that contains the canonical raw-content prefix
without starting with it is rewritten by the `GhFast` variant, so identity
does not hold for all URLs that fail the starts-with test. -/
theorem convert_url_starts_with_cex :
    isPref rawContentHost.data cexUrl.data = false ∧
    strContains cexUrl rawContentHost = true ∧
    convert_url .GhFast cexUrl ≠ cexUrl := by
  refine ⟨by decide, by decide, by decide⟩

/-- C2 (amended): `convert_url` is the identity, for every CDN variant, on
every URL that does not contain the canonical raw-content prefix anywhere
(the source tests `contains`, not a prefix). -/
theorem convert_url_id_of_not_contains (cdn : GitHubCdn) (url : String)
    (h : strContains url rawContentHost = false) : convert_url cdn url = url := by
  unfold convert_url
  rw [h]
  simp

theorem convert_url_id_witness :
    strContains "file:///tmp/a.bin" rawContentHost = false ∧
    convert_url .GhProxy "file:///tmp/a.bin" = "file:///tmp/a.bin" :=
  ⟨by decide, convert_url_id_of_not_contains .GhProxy "file:///tmp/a.bin" (by decide)⟩

/-- C7 counterexample: the placeholder counter is a wrapping u32; ingesting
two sentinel rows with the stored counter at `2 ^ 32 - 1` synthesizes
`placeholder_4294967295` followed by `placeholder_0`, whose counter values
(the only `n` each id can stand for) are not strictly increasing in row
order; the stored successor has wrapped to 1. -/
theorem placeholder_wrap_cex :
    (processRows [some witPh, some witPh] (2 ^ 32 - 1)).1.map IndexV2.id =
      ["placeholder_" ++ natToString 4294967295, "placeholder_" ++ natToString 0] ∧
    (processRows [some witPh, some witPh] (2 ^ 32 - 1)).2 = 1 ∧
    (∀ n1 n2 : Nat,
      "placeholder_" ++ natToString 4294967295 = "placeholder_" ++ natToString n1 →
      "placeholder_" ++ natToString 0 = "placeholder_" ++ natToString n2 →
      ¬ n1 < n2) := by
  refine ⟨rfl, rfl, ?_⟩
  intro n1 n2 h1 h2
  have e1 := placeholderId_inj h1
  have e2 := placeholderId_inj h2
  omega

/-- C7 (amended): within one refresh whose sentinel-row count does not
overrun the u32 placeholder counter (`counter + count ≤ 2 ^ 32`, true until
`2 ^ 32` placeholder rows have been ingested since process start), the
ingestion loop rewrites exactly the sentinel rows, assigning them the ids
`placeholder_<n>` for a strictly increasing run of counter values starting
at the stored counter, so the synthesized ids of that refresh are pairwise
distinct; the counter advances by the number of sentinel rows, wrapping as
a u32. -/
theorem refresh_placeholder_ids (rows : List (Option IndexV2)) (counter : Nat)
    (hsmall : counter < 2 ^ 32)
    (hno : counter + countPlaceholders rows ≤ 2 ^ 32) :
    ∃ ns : List Nat,
      ns.length = countPlaceholders rows ∧
      ns.Pairwise (· < ·) ∧
      processRows rows counter =
        (mergeIds rows ns, (counter + countPlaceholders rows) % 2 ^ 32) ∧
      (ns.map (fun n => "placeholder_" ++ natToString n)).Pairwise (· ≠ ·) := by
  refine ⟨List.range' counter (countPlaceholders rows), ?_, ?_, ?_, ?_⟩
  · exact List.length_range' counter 1 (countPlaceholders rows)
  · exact List.pairwise_lt_range' counter (countPlaceholders rows)
  · exact processRows_eq rows counter hsmall hno
  · refine List.Pairwise.map _ ?_ (List.pairwise_lt_range' counter (countPlaceholders rows))
    intro a b hab heq
    exact Nat.ne_of_lt hab (placeholderId_inj heq)

theorem refresh_placeholder_ids_witness :
    5 < 2 ^ 32 ∧ 5 + countPlaceholders [some witPh, some witPh] ≤ 2 ^ 32 ∧
    (∃ ns : List Nat,
      ns.length = countPlaceholders [some witPh, some witPh] ∧
      ns.Pairwise (· < ·) ∧
      processRows [some witPh, some witPh] 5 =
        (mergeIds [some witPh, some witPh] ns,
         (5 + countPlaceholders [some witPh, some witPh]) % 2 ^ 32) ∧
      (ns.map (fun n => "placeholder_" ++ natToString n)).Pairwise (· ≠ ·)) :=
  ⟨by decide, by decide,
   refresh_placeholder_ids [some witPh, some witPh] 5 (by decide) (by decide)⟩

/-- C9 (amended): `refresh` always stores the CDN selection parsed from its
config; the selection is the variant under the `cdn` key when the whole
config deserializes as a string-to-variant map with such a key, and is
`Raw` (the spec's Direct) whenever that map parse fails - including
invalid JSON, a non-object, or an object with any non-variant field value -
or the key is absent; and config parsing never by itself makes `refresh`
err: with every request succeeding and every body parsing, `refresh`
returns success for every config. -/
theorem refresh_cdn_selection (env : RefreshEnv) (cfg : Option Json) (p : Provider) :
    ((refresh env cfg p).2.cdn = selectCdn cfg) ∧
    (∀ m v, cfg.bind parseCdnConfig = some m → assocLookup m "cdn" = some v →
      selectCdn cfg = v) ∧
    (cfg.bind parseCdnConfig = none → selectCdn cfg = .Raw) ∧
    (∀ m, cfg.bind parseCdnConfig = some m → assocLookup m "cdn" = none →
      selectCdn cfg = .Raw) ∧
    ((∀ u, ∃ r, env.http u = some r ∧ is_error_status r.status = false) →
     (∀ s, ∃ dm, env.parseDeviceMap s = some dm) →
     (∀ s, ∃ j, env.parseJsonText s = some j) →
     ∃ p1, refresh env cfg p = (.ok (), p1)) := by
  refine ⟨?_, ?_, ?_, ?_, ?_⟩
  · simp only [refresh]
    cases hh : env.http (convert_url (selectCdn cfg) indexCsvUrl) with
    | none => rfl
    | some resp =>
        by_cases herr : is_error_status resp.status
        · simp [herr]
        · simp only [herr, Bool.false_eq_true, ite_false, if_neg]
          split
          · rfl
          · rename_i p2 hsp
            obtain ⟨hp2, hl⟩ := split_index_fields hsp
            subst hp2
            cases hh2 : env.http (convert_url (selectCdn cfg) devicesJsonUrl) with
            | none => rfl
            | some resp2 =>
                by_cases herr2 : is_error_status resp2.status
                · simp [herr2]
                · simp only [herr2, Bool.false_eq_true, ite_false, if_neg]
                  cases hdm : env.parseDeviceMap resp2.body with
                  | none => rfl
                  | some dm =>
                      cases hh3 : env.http (convert_url (selectCdn cfg) exploreJsonUrl) with
                      | none => rfl
                      | some resp3 =>
                          by_cases herr3 : is_error_status resp3.status
                          · simp [herr3]
                          · simp only [herr3, Bool.false_eq_true, ite_false, if_neg]
                            cases hj : env.parseJsonText resp3.body with
                            | none => rfl
                            | some j => rfl
  · intro m v hm hv
    simp [selectCdn, hm, hv]
  · intro hm
    simp [selectCdn, hm, assocLookup]
  · intro m hm hv
    simp [selectCdn, hm, hv]
  · intro hhttp hdm hjson
    obtain ⟨r1, hr1, he1⟩ := hhttp (convert_url (selectCdn cfg) indexCsvUrl)
    simp only [refresh]
    rw [hr1]
    simp only [he1, Bool.false_eq_true, ite_false, if_neg]
    rw [split_index_pos (by norm_num)]
    obtain ⟨r2, hr2, he2⟩ := hhttp (convert_url (selectCdn cfg) devicesJsonUrl)
    rw [hr2]
    simp only [he2, Bool.false_eq_true, ite_false, if_neg]
    obtain ⟨dm, hdm2⟩ := hdm r2.body
    rw [hdm2]
    obtain ⟨r3, hr3, he3⟩ := hhttp (convert_url (selectCdn cfg) exploreJsonUrl)
    rw [hr3]
    simp only [he3, Bool.false_eq_true, ite_false, if_neg]
    obtain ⟨j, hj⟩ := hjson r3.body
    rw [hj]
    exact ⟨_, rfl⟩

/-- C9 counterexample: a JSON object whose `cdn` field names the `GhFast`
variant while another field fails to deserialize as a variant makes the
whole map parse fail, so `refresh` selects and stores `Raw`, not
`GhFast`. -/
theorem cdn_config_claim_cex :
    cexCfg.getField "cdn" = some (Json.str "GhFast") ∧
    parseCdnVariant (Json.str "GhFast") = some .GhFast ∧
    selectCdn (some cexCfg) = .Raw ∧
    (refresh envAllOk (some cexCfg) (Provider.new .Raw)).1 = .ok () ∧
    (refresh envAllOk (some cexCfg) (Provider.new .Raw)).2.cdn = .Raw ∧
    GitHubCdn.Raw ≠ GitHubCdn.GhFast := by
  exact ⟨rfl, rfl, rfl, rfl, rfl, by decide⟩

/-- C1: a refresh whose index request reports HTTP 500 returns an error
while the stored state remains `Updating` - the source never stores
`Failed`, contradicting the specified transition to `Failed` with the
error's description. -/
theorem refresh_error_leaves_updating :
    (refresh envHttp500 none (Provider.new .Raw)).1 = .error "index request status error" ∧
    (refresh envHttp500 none (Provider.new .Raw)).2.state = .Updating ∧
    ∀ r, (refresh envHttp500 none (Provider.new .Raw)).2.state ≠ .Failed r := by
  refine ⟨rfl, rfl, ?_⟩
  intro r h
  have h2 : (refresh envHttp500 none (Provider.new .Raw)).2.state = .Updating := rfl
  rw [h2] at h
  exact ProviderState.noConfusion h

/-- C6: for the `Name` and `Time` sort rules, two `get_page` calls with the
same page, limit and search configuration against an unchanged index
return the same list in the same order, whether or not each call rebuilt
the pagination cache. -/
theorem get_page_deterministic_name_time
    (sh1 sh2 : List IndexV2 → List IndexV2) (p : Provider) (page limit : Nat)
    (search : SearchConfig) (hsort : search.sort = .Name ∨ search.sort = .Time)
    (r1 r2 : List ManifestItemV2) (p1 p2 : Provider)
    (h1 : get_page sh1 p page limit search = some (r1, p1))
    (h2 : get_page sh2 p1 page limit search = some (r2, p2)) :
    r1 = r2 := by
  unfold get_page at h1 h2
  by_cases hc : usizeNot p.splited_limit ≠ limit
  · rw [if_pos hc] at h1
    cases hs1 : split_index sh1 p limit search.sort with
    | none =>
        rw [hs1] at h1
        exact absurd h1 (by simp)
    | some px =>
        rw [hs1] at h1
        simp only [Option.some.injEq, Prod.mk.injEq] at h1
        obtain ⟨hr1, hp1⟩ := h1
        obtain ⟨hpx, hl⟩ := split_index_fields hs1
        have hlim1 : p1.splited_limit = limit := by
          rw [← hp1, hpx]
        have hc2 : usizeNot p1.splited_limit ≠ limit := by
          rw [hlim1]
          exact usizeNot_ne_self limit
        rw [if_pos hc2] at h2
        rw [show split_index sh2 p1 limit search.sort =
            some { p1 with
                     splited_index := chunksGo limit (sortedIndex sh2 search.sort p1.index) []
                     splited_limit := limit } from split_index_pos hl] at h2
        simp only [Option.some.injEq, Prod.mk.injEq] at h2
        obtain ⟨hr2, hp2⟩ := h2
        rw [← hr1, ← hr2]
        apply pageResult_congr
        · simp only
          rw [← hp1, hpx]
          simp only
          rw [sortedIndex_no_shuffle hsort]
        · simp only
          rw [← hp1, hpx]
  · rw [if_neg hc] at h1
    simp only [Option.some.injEq, Prod.mk.injEq] at h1
    obtain ⟨hr1, hp1⟩ := h1
    rw [← hp1] at h2
    rw [if_neg hc] at h2
    simp only [Option.some.injEq, Prod.mk.injEq] at h2
    obtain ⟨hr2, hp2⟩ := h2
    rw [← hr1, ← hr2]

theorem get_page_deterministic_witness : witPage1.1 = witPage2.1 :=
  get_page_deterministic_name_time id id witProv 0 1 witSearch (Or.inl rfl)
    witPage1.1 witPage2.1 witPage1.2 witPage2.2 rfl rfl

/-- C10: every `get_page` call whose limit and cached page size are in u32
range rebuilds the pagination cache from the current index with the
requested sort and chunk size before selecting the page - the bitwise-not
guard of the source compares `!cached` with `limit`, which can never be
equal for such values - so after a returning call the cached page size
equals `limit`, the cached pages are the chunking of this call's sort of
the current index (for `Random`, this call's shuffle), and the result is
read from the freshly built cache. -/
theorem get_page_always_rebuilds
    (sh : List IndexV2 → List IndexV2) (p : Provider) (page limit : Nat)
    (search : SearchConfig) (hlimit : limit < 2 ^ 32) (hcache : p.splited_limit < 2 ^ 32)
    (r : List ManifestItemV2) (p1 : Provider)
    (h : get_page sh p page limit search = some (r, p1)) :
    split_index sh p limit search.sort = some p1 ∧
    p1.splited_limit = limit ∧
    p1.index = p.index ∧
    p1.splited_index = chunksGo limit (sortedIndex sh search.sort p.index) [] ∧
    r = pageResult p1 page search := by
  unfold get_page at h
  rw [if_pos (usizeNot_ne_of_small hcache hlimit)] at h
  cases hs : split_index sh p limit search.sort with
  | none =>
      rw [hs] at h
      exact absurd h (by simp)
  | some px =>
      rw [hs] at h
      simp only [Option.some.injEq, Prod.mk.injEq] at h
      obtain ⟨hr, hp1⟩ := h
      subst hp1
      obtain ⟨hpx, hl⟩ := split_index_fields hs
      refine ⟨rfl, ?_, ?_, ?_, hr.symm⟩
      · rw [hpx]
      · rw [hpx]
      · rw [hpx]

theorem get_page_rebuild_witness :
    witPageStale.2.splited_limit = 1 ∧ witPageStale.2.index = witProvStale.index :=
  have h := get_page_always_rebuilds id witProvStale 0 1 witSearch (by decide) (by decide)
    witPageStale.1 witPageStale.2 rfl
  ⟨h.2.1, h.2.2.1⟩

theorem refresh_splited_limit (env : RefreshEnv) (cfg : Option Json) (p : Provider) :
    (refresh env cfg p).2.splited_limit = 114514 ∨
    (refresh env cfg p).2.splited_limit = p.splited_limit := by
  simp only [refresh]
  cases hh : env.http (convert_url (selectCdn cfg) indexCsvUrl) with
  | none => right; rfl
  | some resp =>
      by_cases herr : is_error_status resp.status
      · right
        simp [herr]
      · simp only [herr, Bool.false_eq_true, ite_false, if_neg]
        split
        · right
          rfl
        · rename_i p2 hsp
          obtain ⟨hp2, hl⟩ := split_index_fields hsp
          subst hp2
          left
          cases hh2 : env.http (convert_url (selectCdn cfg) devicesJsonUrl) with
          | none => rfl
          | some resp2 =>
              by_cases herr2 : is_error_status resp2.status
              · simp [herr2]
              · simp only [herr2, Bool.false_eq_true, ite_false, if_neg]
                cases hdm : env.parseDeviceMap resp2.body with
                | none => rfl
                | some dm =>
                    cases hh3 : env.http (convert_url (selectCdn cfg) exploreJsonUrl) with
                    | none => rfl
                    | some resp3 =>
                        by_cases herr3 : is_error_status resp3.status
                        · simp [herr3]
                        · simp only [herr3, Bool.false_eq_true, ite_false, if_neg]
                          cases hj : env.parseJsonText resp3.body with
                          | none => rfl
                          | some j => rfl

theorem get_page_splited_limit (sh : List IndexV2 → List IndexV2) (p : Provider)
    (page limit : Nat) (search : SearchConfig) (r : List ManifestItemV2) (p1 : Provider)
    (h : get_page sh p page limit search = some (r, p1)) :
    p1.splited_limit = limit ∨ p1.splited_limit = p.splited_limit := by
  unfold get_page at h
  by_cases hc : usizeNot p.splited_limit ≠ limit
  · rw [if_pos hc] at h
    cases hs : split_index sh p limit search.sort with
    | none =>
        rw [hs] at h
        exact absurd h (by simp)
    | some px =>
        rw [hs] at h
        simp only [Option.some.injEq, Prod.mk.injEq] at h
        obtain ⟨hpx, hl⟩ := split_index_fields hs
        left
        rw [← h.2, hpx]
  · rw [if_neg hc] at h
    simp only [Option.some.injEq, Prod.mk.injEq] at h
    right
    rw [← h.2]
